import Mathlib

/-!
Verification of the Outdoor Boys knowledge-base builder (`main.py`).

This file shallowly embeds the data model and the operations of the
scraper: JSON values as decoded by Python's `json.loads` (numbers are
modelled as integers; floating-point literals are out of scope for the
properties below), the `md5`-based record id generator, the category
inference table, the per-video extraction plumbing and the aggregation
loop of `build_knowledge_base`.

External effects (the YouTube API, the transcript API and the language
model) are modelled by their observable outcomes, supplied as explicit
inputs: a transcript fetch yields either its list of segment texts or
failure, and a language-model call either raises, or returns text whose
`json.loads` result is a decoded JSON value or a parse failure.

Python dynamic typing is modelled explicitly where the aggregation code
depends on it: attribute errors (`.get`/`.encode` on a non-dict /
non-str) and type errors (iterating a non-iterable) are values of
`PyError`, and the aggregation loop runs in `Except PyError`.
-/

set_option maxRecDepth 100000
set_option maxHeartbeats 2000000

deriving instance DecidableEq for Except

namespace OutdoorBoys

/-- A JSON value as decoded by `json.loads`. Numbers are modelled as
integers (the extracted payloads in this program carry no fractional
numbers relevant to any property proved here). -/
inductive Json where
  | null : Json
  | bool (b : Bool) : Json
  | num (n : Int) : Json
  | str (s : String) : Json
  | arr (elems : List Json) : Json
  | obj (fields : List (String × Json)) : Json

mutual

/-- Decidable equality of JSON values. -/
def jsonDecEq : (a b : Json) → Decidable (a = b)
  | .null, .null => .isTrue rfl
  | .bool a, .bool b =>
    match decEq a b with
    | .isTrue h => .isTrue (congrArg Json.bool h)
    | .isFalse h => .isFalse (fun hh => h (Json.bool.inj hh))
  | .num a, .num b =>
    match decEq a b with
    | .isTrue h => .isTrue (congrArg Json.num h)
    | .isFalse h => .isFalse (fun hh => h (Json.num.inj hh))
  | .str a, .str b =>
    match decEq a b with
    | .isTrue h => .isTrue (congrArg Json.str h)
    | .isFalse h => .isFalse (fun hh => h (Json.str.inj hh))
  | .arr xs, .arr ys =>
    match jsonListDecEq xs ys with
    | .isTrue h => .isTrue (congrArg Json.arr h)
    | .isFalse h => .isFalse (fun hh => h (Json.arr.inj hh))
  | .obj fs, .obj gs =>
    match jsonFieldsDecEq fs gs with
    | .isTrue h => .isTrue (congrArg Json.obj h)
    | .isFalse h => .isFalse (fun hh => h (Json.obj.inj hh))
  | .null, .bool _ | .null, .num _ | .null, .str _ | .null, .arr _
  | .null, .obj _ | .bool _, .null | .bool _, .num _ | .bool _, .str _
  | .bool _, .arr _ | .bool _, .obj _ | .num _, .null | .num _, .bool _
  | .num _, .str _ | .num _, .arr _ | .num _, .obj _ | .str _, .null
  | .str _, .bool _ | .str _, .num _ | .str _, .arr _ | .str _, .obj _
  | .arr _, .null | .arr _, .bool _ | .arr _, .num _ | .arr _, .str _
  | .arr _, .obj _ | .obj _, .null | .obj _, .bool _ | .obj _, .num _
  | .obj _, .str _ | .obj _, .arr _ => .isFalse (fun h => Json.noConfusion h)

/-- Decidable equality of JSON value lists. -/
def jsonListDecEq : (xs ys : List Json) → Decidable (xs = ys)
  | [], [] => .isTrue rfl
  | [], _ :: _ => .isFalse (fun h => List.noConfusion h)
  | _ :: _, [] => .isFalse (fun h => List.noConfusion h)
  | x :: xs, y :: ys =>
    match jsonDecEq x y, jsonListDecEq xs ys with
    | .isTrue h1, .isTrue h2 => .isTrue (by rw [h1, h2])
    | .isFalse h1, _ => .isFalse (fun hh => h1 (List.cons.inj hh).1)
    | _, .isFalse h2 => .isFalse (fun hh => h2 (List.cons.inj hh).2)

/-- Decidable equality of JSON object field lists. -/
def jsonFieldsDecEq : (fs gs : List (String × Json)) → Decidable (fs = gs)
  | [], [] => .isTrue rfl
  | [], _ :: _ => .isFalse (fun h => List.noConfusion h)
  | _ :: _, [] => .isFalse (fun h => List.noConfusion h)
  | (k1, v1) :: fs, (k2, v2) :: gs =>
    match decEq k1 k2, jsonDecEq v1 v2, jsonFieldsDecEq fs gs with
    | .isTrue h1, .isTrue h2, .isTrue h3 => .isTrue (by rw [h1, h2, h3])
    | .isFalse h1, _, _ =>
      .isFalse (fun hh => h1 (congrArg Prod.fst (List.cons.inj hh).1))
    | _, .isFalse h2, _ =>
      .isFalse (fun hh => h2 (congrArg Prod.snd (List.cons.inj hh).1))
    | _, _, .isFalse h3 => .isFalse (fun hh => h3 (List.cons.inj hh).2)

end

instance : DecidableEq Json := jsonDecEq

/-- Python errors the aggregation code can raise. -/
inductive PyError where
  | attributeError : PyError
  | typeError : PyError
deriving DecidableEq

/-- Python truthiness of a decoded JSON value (`if biz.get('name'):`). -/
def truthy : Json → Bool
  | .null => false
  | .bool b => b
  | .num n => decide (n ≠ 0)
  | .str s => !s.isEmpty
  | .arr xs => !xs.isEmpty
  | .obj fs => !fs.isEmpty

/-- Python dict lookup `d.get(key, default)` on a decoded JSON object (decoded JSON object):
the value bound to `key`, else the default. -/
def dictGet (fields : List (String × Json)) (key : String) (default : Json) : Json :=
  match fields.lookup key with
  | some v => v
  | none => default

/-- Python `v.get(key, default)` on an arbitrary value: only dicts have
`.get`; any other value raises `AttributeError`. -/
def pyGet (v : Json) (key : String) (default : Json) : Except PyError Json :=
  match v with
  | .obj fs => .ok (dictGet fs key default)
  | _ => .error .attributeError

/-- Python iteration `for x in v` over a decoded JSON value. Lists yield their
elements, dicts their keys, strings their one-character substrings;
numbers, booleans and `None` raise `TypeError`. -/
def pyIter : Json → Except PyError (List Json)
  | .arr xs => .ok xs
  | .obj fs => .ok (fs.map (fun p => Json.str p.1))
  | .str s => .ok (s.toList.map (fun c => Json.str (String.mk [c])))
  | _ => .error .typeError

/-- Is this value a Python dict (`isinstance(v, dict)`)? -/
def isDict : Json → Bool
  | .obj _ => true
  | _ => false

mutual

/-- Python `repr()` of a decoded JSON value. String repr is modelled as
plain single-quoting (quote-escaping inside the string is not modelled;
no property below depends on it). -/
def pyRepr : Json → String
  | .null => "None"
  | .bool true => "True"
  | .bool false => "False"
  | .num n => toString n
  | .str s => "\x27" ++ s ++ "\x27"
  | .arr xs => "[" ++ pyReprList xs ++ "]"
  | .obj fs => "\x7b" ++ pyReprFields fs ++ "\x7d"

/-- Comma-separated `repr`s of list elements. -/
def pyReprList : List Json → String
  | [] => ""
  | [x] => pyRepr x
  | x :: y :: xs => pyRepr x ++ ", " ++ pyReprList (y :: xs)

/-- Comma-separated `repr`s of dict entries. -/
def pyReprFields : List (String × Json) → String
  | [] => ""
  | [(k, v)] => "\x27" ++ k ++ "\x27: " ++ pyRepr v
  | (k, v) :: f :: fs => "\x27" ++ k ++ "\x27: " ++ pyRepr v ++ ", " ++ pyReprFields (f :: fs)

end

/-- Python `str()` of a decoded JSON value: identity on strings,
`repr` on everything else. -/
def pyStr : Json → String
  | .str s => s
  | v => pyRepr v

/-! ## MD5 (`hashlib.md5`), over bytes as `Nat`s below 256 -/

/-- The MD5 word modulus, 2^32. -/
def w32 : Nat := 4294967296

/-- Rotate a 32-bit word (a `Nat` below `w32`) left by `s` bits. -/
def rotl32 (x s : Nat) : Nat :=
  ((x <<< s) ||| (x >>> (32 - s))) % w32

/-- Bitwise complement of a 32-bit word. -/
def not32 (x : Nat) : Nat := x ^^^ (w32 - 1)

/-- The 64 MD5 round constants (floor(2^32 * |sin(i+1)|)). -/
def md5K : List Nat :=
  [0xd76aa478, 0xe8c7b756, 0x242070db, 0xc1bdceee,
   0xf57c0faf, 0x4787c62a, 0xa8304613, 0xfd469501,
   0x698098d8, 0x8b44f7af, 0xffff5bb1, 0x895cd7be,
   0x6b901122, 0xfd987193, 0xa679438e, 0x49b40821,
   0xf61e2562, 0xc040b340, 0x265e5a51, 0xe9b6c7aa,
   0xd62f105d, 0x02441453, 0xd8a1e681, 0xe7d3fbc8,
   0x21e1cde6, 0xc33707d6, 0xf4d50d87, 0x455a14ed,
   0xa9e3e905, 0xfcefa3f8, 0x676f02d9, 0x8d2a4c8a,
   0xfffa3942, 0x8771f681, 0x6d9d6122, 0xfde5380c,
   0xa4beea44, 0x4bdecfa9, 0xf6bb4b60, 0xbebfbc70,
   0x289b7ec6, 0xeaa127fa, 0xd4ef3085, 0x04881d05,
   0xd9d4d039, 0xe6db99e5, 0x1fa27cf8, 0xc4ac5665,
   0xf4292244, 0x432aff97, 0xab9423a7, 0xfc93a039,
   0x655b59c3, 0x8f0ccc92, 0xffeff47d, 0x85845dd1,
   0x6fa87e4f, 0xfe2ce6e0, 0xa3014314, 0x4e0811a1,
   0xf7537e82, 0xbd3af235, 0x2ad7d2bb, 0xeb86d391]

/-- The 64 per-round left-rotation amounts. -/
def md5S : List Nat :=
  [7, 12, 17, 22, 7, 12, 17, 22, 7, 12, 17, 22, 7, 12, 17, 22,
   5, 9, 14, 20, 5, 9, 14, 20, 5, 9, 14, 20, 5, 9, 14, 20,
   4, 11, 16, 23, 4, 11, 16, 23, 4, 11, 16, 23, 4, 11, 16, 23,
   6, 10, 15, 21, 6, 10, 15, 21, 6, 10, 15, 21, 6, 10, 15, 21]

/-- Little-endian 32-bit word `i` of a 64-byte chunk. -/
def leWord (chunk : List Nat) (i : Nat) : Nat :=
  chunk.getD (4 * i) 0 + 256 * chunk.getD (4 * i + 1) 0 +
    65536 * chunk.getD (4 * i + 2) 0 + 16777216 * chunk.getD (4 * i + 3) 0

/-- One MD5 round: state `(a, b, c, d)`, message words `m`, round `i`. -/
def md5Round (st : Nat × Nat × Nat × Nat) (m : List Nat) (i : Nat) :
    Nat × Nat × Nat × Nat :=
  let (a, b, c, d) := st
  let f :=
    if i < 16 then (b &&& c) ||| (not32 b &&& d)
    else if i < 32 then (d &&& b) ||| (not32 d &&& c)
    else if i < 48 then b ^^^ c ^^^ d
    else c ^^^ (b ||| not32 d)
  let g :=
    if i < 16 then i
    else if i < 32 then (5 * i + 1) % 16
    else if i < 48 then (3 * i + 5) % 16
    else (7 * i) % 16
  let f' := (f + a + md5K.getD i 0 + m.getD g 0) % w32
  (d, (b + rotl32 f' (md5S.getD i 0)) % w32, b, c)

/-- Process one 64-byte chunk of the padded message. -/
def md5Chunk (st : Nat × Nat × Nat × Nat) (chunk : List Nat) :
    Nat × Nat × Nat × Nat :=
  let m := (List.range 16).map (leWord chunk)
  let r := (List.range 64).foldl (fun s i => md5Round s m i) st
  ((st.1 + r.1) % w32, (st.2.1 + r.2.1) % w32,
   (st.2.2.1 + r.2.2.1) % w32, (st.2.2.2 + r.2.2.2) % w32)

/-- MD5 padding: append `0x80`, zero bytes up to 56 mod 64, then the
bit length as a little-endian 64-bit quantity. -/
def md5Pad (msg : List Nat) : List Nat :=
  let len := msg.length
  let padZeros := (55 - len % 64 + 64) % 64
  let bitLen := (len * 8) % 18446744073709551616
  msg ++ [0x80] ++ List.replicate padZeros 0 ++
    (List.range 8).map (fun i => (bitLen >>> (8 * i)) % 256)

/-- Split a (padded) message into its 64-byte chunks. -/
def md5Chunks (l : List Nat) : List (List Nat) :=
  (List.range (l.length / 64)).map (fun i => ((l.drop (64 * i)).take 64))

/-- One lowercase hex digit. -/
def hexDigit (n : Nat) : String := String.mk [Nat.digitChar n]

/-- Two lowercase hex digits of a byte. -/
def byteHex (b : Nat) : String := hexDigit (b / 16) ++ hexDigit (b % 16)

/-- Hex of a 32-bit word, little-endian byte order (as MD5 digests print). -/
def wordLEHex (w : Nat) : String :=
  byteHex (w % 256) ++ byteHex ((w >>> 8) % 256) ++
    byteHex ((w >>> 16) % 256) ++ byteHex ((w >>> 24) % 256)

/-- The MD5 hex digest, `hashlib.md5(bytes).hexdigest()`. -/
def md5Hex (msg : List Nat) : String :=
  let st := (md5Chunks (md5Pad msg)).foldl md5Chunk
    (0x67452301, 0xefcdab89, 0x98badcfe, 0x10325476)
  wordLEHex st.1 ++ wordLEHex st.2.1 ++ wordLEHex st.2.2.1 ++ wordLEHex st.2.2.2

/-- The UTF-8 encoding of one character. -/
def utf8EncodeChar (c : Char) : List Nat :=
  let n := c.toNat
  if n < 128 then [n]
  else if n < 2048 then
    [192 ||| (n >>> 6), 128 ||| (n &&& 63)]
  else if n < 65536 then
    [224 ||| (n >>> 12), 128 ||| ((n >>> 6) &&& 63), 128 ||| (n &&& 63)]
  else
    [240 ||| (n >>> 18), 128 ||| ((n >>> 12) &&& 63),
     128 ||| ((n >>> 6) &&& 63), 128 ||| (n &&& 63)]

/-- Python `s.encode()`: the UTF-8 bytes of a string. -/
def strToUtf8 (s : String) : List Nat :=
  s.toList.foldr (fun c acc => utf8EncodeChar c ++ acc) []

/-- The id generator `generate_id(content)`: the first 12 hex characters of the MD5 of the
UTF-8 encoding of `content` (main.py, lines 201-203). -/
def generate_id (content : String) : String :=
  (md5Hex (strToUtf8 content)).take 12

/-- The id generator as called on an arbitrary decoded JSON value:
`content.encode()` exists only on strings; any other value raises
`AttributeError`. -/
def pyGenerateId (v : Json) : Except PyError String :=
  match v with
  | .str s => .ok (generate_id s)
  | _ => .error .attributeError

/-! ## Category inference -/

/-- Does `kw` occur at the start of `text` (character-list view)? -/
def matchesAt : List Char → List Char → Bool
  | [], _ => true
  | _ :: _, [] => false
  | k :: ks, t :: ts => k == t && matchesAt ks ts

/-- Does `kw` occur anywhere inside `text` (character-list view)? -/
def containsSub : List Char → List Char → Bool
  | text, kw =>
    match text with
    | [] => kw.isEmpty
    | _ :: ts => matchesAt kw text || containsSub ts kw

/-- Python's `kw in text` substring test on strings. -/
def strContains (text kw : String) : Bool :=
  containsSub text.toList kw.toList

/-- The table `CATEGORY_KEYWORDS` (main.py, lines 31-40): the ordered
category → keyword-list table (Python dicts preserve insertion order). -/
def CATEGORY_KEYWORDS : List (String × List String) :=
  [("winter_survival", ["winter", "cold", "snow", "ice", "freeze", "survival", "shelter"]),
   ("building", ["build", "cabin", "construction", "sauna", "house", "shed"]),
   ("fishing", ["fish", "fishing", "catch", "salmon", "trout", "halibut"]),
   ("camping", ["camp", "camping", "tent", "outdoor"]),
   ("cooking", ["cook", "recipe", "food", "meal", "eat"]),
   ("gear", ["gear", "equipment", "review", "tool"]),
   ("alaska", ["alaska", "wild", "wilderness", "adventure"]),
   ("family", ["family", "kids", "boys"])]

/-- The `for category, keywords in CATEGORY_KEYWORDS.items()` loop of
`_infer_category`: return the first category one of whose keywords
occurs in `text`, else `'general'`. -/
def inferGo (text : String) : List (String × List String) → String
  | [] => "general"
  | (cat, kws) :: rest =>
    if kws.any (fun kw => strContains text kw) then cat else inferGo text rest

/-- Python `str.lower()`, character by character (as in Python, only cased
letters change; the keyword table is ASCII, so the ASCII mapping of
`Char.toLower` is the relevant fragment). -/
def strLower (s : String) : String :=
  String.mk (s.toList.map Char.toLower)

/-- The method `_infer_category(title, description)` (main.py, lines 49-56):
lower-case the concatenation `title + ' ' + description` and scan the
keyword table in order. -/
def inferCategory (title : String) (description : String) : String :=
  inferGo (strLower (title ++ " " ++ description)) CATEGORY_KEYWORDS

/-! ## Data model of the records built by `build_knowledge_base` -/

/-- A playlist as returned by `get_channel_playlists` (main.py, 70-76). -/
structure Playlist where
  id : String
  title : String
  description : String
  video_count : Nat
  category : String
deriving DecidableEq

/-- The raw playlist data of one API item, before category inference. -/
structure RawPlaylist where
  id : String
  title : String
  description : String
  video_count : Nat
deriving DecidableEq

/-- The method `get_channel_playlists` (main.py, 58-80), over the raw items the
paginated API yields: each item is annotated with the category inferred
from its title (the `description` argument defaults to `''`). -/
def get_channel_playlists (raw : List RawPlaylist) : List Playlist :=
  raw.map (fun p => ⟨p.id, p.title, p.description, p.video_count,
    inferCategory p.title ""⟩)

/-- A video as returned by `get_playlist_videos` (main.py, 94-100). -/
structure Video where
  video_id : String
  title : String
  description : String
  published_at : String
  playlist_id : String
deriving DecidableEq

/-- A transcript as returned by `get_transcript` (main.py, 122-126). -/
structure Transcript where
  video_id : String
  segments : List String
  full_text : String
deriving DecidableEq

/-- The method `get_transcript(video_id)` (main.py, 117-129): the fetch outcome is
an input (`none` models the library call raising); on success the
segment texts are joined with single spaces, on failure the function
logs and returns `None`. -/
def get_transcript (video_id : String) (fetched : Option (List String)) :
    Option Transcript :=
  match fetched with
  | none => none
  | some segs => some ⟨video_id, segs, String.intercalate " " segs⟩

/-- The outcome of one language-model call: the API call raises, or it
returns text whose `json.loads` gives a decoded value (`some j`) or a
parse failure (`none`). -/
inductive LLMOutcome where
  | failure : LLMOutcome
  | response (parsed : Option Json) : LLMOutcome
deriving DecidableEq

/-- The empty default of `extract_facts_with_llm` (main.py, 134 and 168). -/
def emptyExtraction : Json :=
  Json.obj [("facts", .arr []), ("jokes", .arr []),
            ("businesses", .arr []), ("recipes", .arr [])]

/-- The method `extract_facts_with_llm` (main.py, 131-168): without a configured
Anthropic client, the empty default; otherwise the `json.loads` of the
response text, with any exception (API failure or parse failure) caught
and replaced by the empty default. No type check is applied to the
parsed value. -/
def extract_facts_with_llm (anthropicConfigured : Bool) (outcome : LLMOutcome) :
    Json :=
  if !anthropicConfigured then emptyExtraction
  else
    match outcome with
    | .failure => emptyExtraction
    | .response none => emptyExtraction
    | .response (some j) => j

/-- The method `extract_businesses_from_description` (main.py, 170-198): without a
configured Anthropic client the empty list; otherwise the `json.loads`
of the response text, with any exception caught and replaced by the
empty list. No type check is applied to the parsed value. -/
def extract_businesses_from_description (anthropicConfigured : Bool)
    (outcome : LLMOutcome) : Json :=
  if !anthropicConfigured then Json.arr []
  else
    match outcome with
    | .failure => Json.arr []
    | .response none => Json.arr []
    | .response (some j) => j

/-- A fact record (main.py, 253-313). `content` keeps the raw extracted
value, as Python stores it. -/
structure Fact where
  id : String
  type : String
  content : Json
  category : String
  videoId : String
  videoTitle : String
  tags : List String
deriving DecidableEq

/-- A joke record (main.py, 317-323). -/
structure Joke where
  id : String
  punchline : Json
  context : String
  videoId : String
  videoTitle : String
deriving DecidableEq

/-- A recipe record (main.py, 328-337). -/
structure Recipe where
  id : String
  name : Json
  description : String
  ingredients : Json
  steps : Json
  cookingMethod : Json
  videoId : String
  videoTitle : String
deriving DecidableEq

/-- A business record (main.py, 342-351 and 357-366). -/
structure Business where
  id : String
  name : Json
  type : Json
  location : Json
  contact : Json
  website : Json
  videoReferences : List (String × String)
  description : String
deriving DecidableEq

/-! ## The aggregation loop of `build_knowledge_base` (main.py, 206-406) -/

/-- The `for tip in extracted.get('survival_tips', [])` loop body
(main.py, 252-261), over an already-iterated item list. `generate_id`
raises on non-string items. -/
def processTips (v : Video) (category : String) (facts : List Fact) :
    List Json → Except PyError (List Fact)
  | [] => .ok facts
  | tip :: rest => do
    let id ← pyGenerateId tip
    processTips v category (facts ++
      [⟨id, "survival_tip", tip, category, v.video_id, v.title,
        ["survival", category]⟩]) rest

/-- The `building_techniques` loop (main.py, 264-273). -/
def processTechniques (v : Video) (facts : List Fact) :
    List Json → Except PyError (List Fact)
  | [] => .ok facts
  | tech :: rest => do
    let id ← pyGenerateId tech
    processTechniques v (facts ++
      [⟨id, "building_technique", tech, "building", v.video_id, v.title,
        ["building", "construction"]⟩]) rest

/-- The `life_lessons` loop (main.py, 276-285). -/
def processLessons (v : Video) (facts : List Fact) :
    List Json → Except PyError (List Fact)
  | [] => .ok facts
  | lesson :: rest => do
    let id ← pyGenerateId lesson
    processLessons v (facts ++
      [⟨id, "life_lesson", lesson, "life_lessons", v.video_id, v.title,
        ["wisdom", "philosophy"]⟩]) rest

/-- The `fishing_tips` loop (main.py, 288-297). -/
def processFishingTips (v : Video) (facts : List Fact) :
    List Json → Except PyError (List Fact)
  | [] => .ok facts
  | tip :: rest => do
    let id ← pyGenerateId tip
    processFishingTips v (facts ++
      [⟨id, "fishing_tip", tip, "fishing", v.video_id, v.title,
        ["fishing"]⟩]) rest

/-- The gear content string (main.py, 301-304): a dict is flattened with
the `name`/`use`/`recommendation` fields, anything else is `str(gear)`. -/
def gearContent : Json → String
  | .obj fs =>
    pyStr (dictGet fs "name" (.str "Unknown")) ++ ": " ++
      pyStr (dictGet fs "use" (.str "")) ++ " - " ++
      pyStr (dictGet fs "recommendation" (.str ""))
  | g => pyStr g

/-- The `gear_recommendations` loop (main.py, 300-313). The content is
always a string, so this loop never raises. -/
def processGear (v : Video) (facts : List Fact) : List Json → List Fact
  | [] => facts
  | gear :: rest =>
    let content := gearContent gear
    processGear v (facts ++
      [⟨generate_id content, "gear", .str content, "gear", v.video_id,
        v.title, ["gear", "equipment"]⟩]) rest

/-- The `dad_jokes` loop (main.py, 316-323). -/
def processJokes (v : Video) (jokes : List Joke) :
    List Json → Except PyError (List Joke)
  | [] => .ok jokes
  | joke :: rest => do
    let id ← pyGenerateId joke
    processJokes v (jokes ++ [⟨id, joke, v.title, v.video_id, v.title⟩]) rest

/-- The `recipes` loop (main.py, 326-337): only dict items are appended;
non-dict items fall through the `isinstance` guard with no `else`. -/
def processRecipes (v : Video) (recipes : List Recipe) :
    List Json → Except PyError (List Recipe)
  | [] => .ok recipes
  | .obj fs :: rest => do
    let id ← pyGenerateId (dictGet fs "name" (.str ""))
    processRecipes v (recipes ++
      [⟨id, dictGet fs "name" (.str "Unknown Recipe"), "From " ++ v.title,
        dictGet fs "ingredients" (.arr []), dictGet fs "steps" (.arr []),
        dictGet fs "cooking_method" (.str "campfire"), v.video_id,
        v.title⟩]) rest
  | _ :: rest => processRecipes v recipes rest

/-- One item of the `businesses_mentioned` loop (main.py, 340-351):
appended only when the item is a dict whose `name` value is truthy. -/
def processBizItemT (v : Video) (biz : Json) : Except PyError (Option Business) :=
  match biz with
  | .obj fs =>
    if truthy (dictGet fs "name" .null) then do
      let id ← pyGenerateId (dictGet fs "name" (.str ""))
      pure (some ⟨id, dictGet fs "name" (.str ""), dictGet fs "type" (.str "other"),
        dictGet fs "location" (.str ""), dictGet fs "contact" (.str ""),
        dictGet fs "website" (.str ""), [(v.video_id, v.title)],
        "Mentioned in " ++ v.title⟩)
    else pure none
  | _ => pure none

/-- One item of the description-derived business loop (main.py, 355-366):
identical guard and shape, with the `From video description:` text. -/
def processBizItemD (v : Video) (biz : Json) : Except PyError (Option Business) :=
  match biz with
  | .obj fs =>
    if truthy (dictGet fs "name" .null) then do
      let id ← pyGenerateId (dictGet fs "name" (.str ""))
      pure (some ⟨id, dictGet fs "name" (.str ""), dictGet fs "type" (.str "other"),
        dictGet fs "location" (.str ""), dictGet fs "contact" (.str ""),
        dictGet fs "website" (.str ""), [(v.video_id, v.title)],
        "From video description: " ++ v.title⟩)
    else pure none
  | _ => pure none

/-- The `businesses_mentioned` loop over its item list. -/
def processBizListT (v : Video) (bizs : List Business) :
    List Json → Except PyError (List Business)
  | [] => .ok bizs
  | biz :: rest => do
    match ← processBizItemT v biz with
    | some r => processBizListT v (bizs ++ [r]) rest
    | none => processBizListT v bizs rest

/-- The description-derived business loop over its item list. -/
def processBizListD (v : Video) (bizs : List Business) :
    List Json → Except PyError (List Business)
  | [] => .ok bizs
  | biz :: rest => do
    match ← processBizItemD v biz with
    | some r => processBizListD v (bizs ++ [r]) rest
    | none => processBizListD v bizs rest

/-- The per-video inputs of one loop iteration: the video metadata and
the observable outcomes of its three external calls. -/
structure VideoInput where
  video : Video
  transcriptFetch : Option (List String)
  llmFacts : LLMOutcome
  llmDesc : LLMOutcome
deriving DecidableEq

/-- The four accumulator lists of `build_knowledge_base`. -/
structure KBState where
  all_facts : List Fact
  all_businesses : List Business
  all_jokes : List Joke
  all_recipes : List Recipe
deriving DecidableEq

/-- One iteration of the video loop (main.py, 239-368): skip the video
when the transcript is unavailable, otherwise run both extractions and
fan the extracted lists out into the accumulators. Dynamic-typing
errors (`.get` on a non-dict, iterating a non-iterable, `.encode` on a
non-str) propagate as `PyError` and abort the run, exactly as the
uncaught Python exceptions would. -/
def processVideo (anthropicConfigured : Bool) (st : KBState) (inp : VideoInput) :
    Except PyError KBState :=
  match get_transcript inp.video.video_id inp.transcriptFetch with
  | none => .ok st
  | some _transcript => do
    let extracted := extract_facts_with_llm anthropicConfigured inp.llmFacts
    let v := inp.video
    let category := inferCategory v.title v.description
    let tips ← pyIter (← pyGet extracted "survival_tips" (.arr []))
    let facts1 ← processTips v category st.all_facts tips
    let techs ← pyIter (← pyGet extracted "building_techniques" (.arr []))
    let facts2 ← processTechniques v facts1 techs
    let lessons ← pyIter (← pyGet extracted "life_lessons" (.arr []))
    let facts3 ← processLessons v facts2 lessons
    let ftips ← pyIter (← pyGet extracted "fishing_tips" (.arr []))
    let facts4 ← processFishingTips v facts3 ftips
    let gears ← pyIter (← pyGet extracted "gear_recommendations" (.arr []))
    let facts5 := processGear v facts4 gears
    let jokeItems ← pyIter (← pyGet extracted "dad_jokes" (.arr []))
    let jokes1 ← processJokes v st.all_jokes jokeItems
    let recipeItems ← pyIter (← pyGet extracted "recipes" (.arr []))
    let recipes1 ← processRecipes v st.all_recipes recipeItems
    let bizItems ← pyIter (← pyGet extracted "businesses_mentioned" (.arr []))
    let biz1 ← processBizListT v st.all_businesses bizItems
    let descExtract := extract_businesses_from_description anthropicConfigured inp.llmDesc
    let descItems ← pyIter descExtract
    let biz2 ← processBizListD v biz1 descItems
    pure ⟨facts5, biz2, jokes1, recipes1⟩

/-- The `for i, video in enumerate(videos)` loop (main.py, 239-368). -/
def buildLoop (anthropicConfigured : Bool) (st : KBState) :
    List VideoInput → Except PyError KBState
  | [] => .ok st
  | inp :: rest => do
    let st' ← processVideo anthropicConfigured st inp
    buildLoop anthropicConfigured st' rest

/-- One entry of the `categories` dict (main.py, 224-231). -/
structure CategoryEntry where
  id : String
  name : String
  description : String
  playlistId : String
  category : String
  factCount : Nat
deriving DecidableEq

/-- Python dict assignment `d[k] = v`: overwrite in place when the key
exists, else append at the end (insertion order is preserved). -/
def dictInsert (d : List (String × CategoryEntry)) (k : String)
    (v : CategoryEntry) : List (String × CategoryEntry) :=
  if d.any (fun p => p.1 == k) then
    d.map (fun p => if p.1 == k then (k, v) else p)
  else d ++ [(k, v)]

/-- The `for p in playlists` loop filling `categories` (main.py, 223-231):
every entry is created with `factCount = 0`. -/
def buildCategories (playlists : List Playlist) : List (String × CategoryEntry) :=
  playlists.foldl
    (fun d p => dictInsert d p.id ⟨p.id, p.title, p.description, p.id, p.category, 0⟩)
    []

/-- The `metadata` object (main.py, 378-384). The `lastUpdated` wall-
clock timestamp is not modelled. -/
structure Metadata where
  totalVideos : Nat
  totalFacts : Nat
  version : String
  channelName : String
deriving DecidableEq

/-- The six serialized outputs of one run, as in-memory collections:
`metadata.json`, `categories.json` (the dict's values in order),
`facts.json`, `businesses.json`, `jokes.json`, `recipes.json`. -/
structure KBOutput where
  metadata : Metadata
  categories : List CategoryEntry
  facts : List Fact
  businesses : List Business
  jokes : List Joke
  recipes : List Recipe
deriving DecidableEq

/-- The function `build_knowledge_base` (main.py, 206-406): build the categories
dict from the fetched playlists, truncate the channel's upload list to
`max_videos`, run the video loop, and serialize the collections. The
raw playlist items and the per-video external outcomes are inputs. -/
def build_knowledge_base (anthropicConfigured : Bool)
    (rawPlaylists : List RawPlaylist) (allVideos : List VideoInput)
    (max_videos : Nat) : Except PyError KBOutput := do
  let playlists := get_channel_playlists rawPlaylists
  let categories := buildCategories playlists
  let videos := allVideos.take max_videos
  let st ← buildLoop anthropicConfigured ⟨[], [], [], []⟩ videos
  pure ⟨⟨videos.length, st.all_facts.length, "1.0.0", "Outdoor Boys"⟩,
        categories.map Prod.snd, st.all_facts, st.all_businesses,
        st.all_jokes, st.all_recipes⟩

/-! ## Specification-side definitions (for refinement statements) -/

/-- Modelled from the spec's words, for comparison with `inferCategory`:
return the first category of the ordered table one of whose keywords
occurs in the lower-cased concatenation of title and description, else
the default `general` category. -/
def firstMatchCategory (title : String) (description : String) : String :=
  ((CATEGORY_KEYWORDS.find?
      (fun p => p.2.any (fun kw => strContains (strLower (title ++ " " ++ description)) kw))).map
    Prod.fst).getD "general"

/-- Does a language-model call outcome fall in the fail-soft cases of
the `try`/`except` wrappers: the call raised, or its text failed to
parse as JSON? -/
def failSoft : LLMOutcome → Bool
  | .failure => true
  | .response none => true
  | .response (some _) => false

/-- The `name` value of a business item is a string whenever present
(the shape the prompt requests). -/
def nameFieldIsStr : Json → Bool
  | .obj fs =>
    match fs.lookup "name" with
    | some (.str _) => true
    | some _ => false
    | none => true
  | _ => true

/-- Is this item a dict whose `name` field is present and a non-empty
string? -/
def hasNonEmptyName : Json → Bool
  | .obj fs =>
    match fs.lookup "name" with
    | some (.str s) => !s.isEmpty
    | _ => false
  | _ => false

/-! ## Helper lemmas -/

/-- Validation of the MD5 model against the RFC 1321 test value for the
empty message. -/
lemma md5Hex_nil : md5Hex [] = "d41d8cd98f00b204e9800998ecf8427e" := by decide

/-- Validation of the MD5 model against the RFC 1321 test value for
`abc`. -/
lemma md5Hex_abc : md5Hex (strToUtf8 "abc") = "900150983cd24fb0d6963f7d28e17f72" := by
  decide

/-- The `_infer_category` scan loop returns the first table entry with
a keyword hit, else the default. -/
lemma inferGo_eq_find (text : String) (l : List (String × List String)) :
    inferGo text l =
      ((l.find? (fun p => p.2.any (fun kw => strContains text kw))).map
        Prod.fst).getD "general" := by
  induction l with
  | nil => rfl
  | cons p rest ih =>
    obtain ⟨cat, kws⟩ := p
    by_cases h : kws.any (fun kw => strContains text kw) = true
    · simp [inferGo, List.find?, h]
    · simp only [Bool.not_eq_true] at h
      simp [inferGo, List.find?, h, ih]

/-- A video whose transcript fetch failed is skipped with the state
unchanged. -/
lemma processVideo_transcript_none (anthropicConfigured : Bool) (st : KBState)
    (inp : VideoInput) (h : inp.transcriptFetch = none) :
    processVideo anthropicConfigured st inp = .ok st := by
  simp [processVideo, get_transcript, h]

/-! ## The claims -/

/-- Claim C3: category inference lower-cases the concatenation of the
title and the (possibly empty) description and returns the first
category of the fixed ordered keyword table with a keyword occurrence
in that text, `general` when no keyword of any category occurs; with
keywords of two categories present, the earlier table entry wins
(`List.find?` returns the first satisfying entry). The function is
total by construction. -/
theorem infer_category_first_match (title description : String) :
    inferCategory title description = firstMatchCategory title description := by
  simpa [inferCategory, firstMatchCategory] using
    inferGo_eq_find (strLower (title ++ " " ++ description)) CATEGORY_KEYWORDS

/-- Claim C5: a video whose transcript fetch fails contributes zero
records to every collection (the state is returned unchanged, so no
extraction happens for it), and the loop continues with the remaining
videos. -/
theorem transcript_failure_skips_video (anthropicConfigured : Bool)
    (st : KBState) (inp : VideoInput) (rest : List VideoInput)
    (h : inp.transcriptFetch = none) :
    processVideo anthropicConfigured st inp = .ok st ∧
    buildLoop anthropicConfigured st (inp :: rest) =
      buildLoop anthropicConfigured st rest := by
  have h1 := processVideo_transcript_none anthropicConfigured st inp h
  refine ⟨h1, ?_⟩
  simp only [buildLoop, h1]
  rfl

/-- Witness for claim C5 at a concrete skipped video. -/
theorem transcript_failure_skips_video_witness :
    processVideo true ⟨[], [], [], []⟩
        ⟨⟨"v0", "Ice fishing", "d", "2024", "p"⟩, none,
          .response (some (Json.obj [])), .failure⟩ = .ok ⟨[], [], [], []⟩ ∧
    buildLoop true ⟨[], [], [], []⟩
        [⟨⟨"v0", "Ice fishing", "d", "2024", "p"⟩, none,
          .response (some (Json.obj [])), .failure⟩] =
      buildLoop true ⟨[], [], [], []⟩ [] :=
  transcript_failure_skips_video true ⟨[], [], [], []⟩
    ⟨⟨"v0", "Ice fishing", "d", "2024", "p"⟩, none,
      .response (some (Json.obj [])), .failure⟩ [] rfl

/-- Counterexample to claim C1: model output that parses as JSON but is
not a dict (here the valid-JSON array `[]`) is NOT type-checked; reading
the first named field (`extracted.get('survival_tips', [])`, main.py
line 252) raises `AttributeError` and aborts the run instead of
degrading to the empty result. -/
theorem nondict_llm_output_raises :
    processVideo true ⟨[], [], [], []⟩
      ⟨⟨"v1", "T", "D", "2024", "p"⟩, some ["hello"],
        .response (some (Json.arr [])), .failure⟩ = .error .attributeError := by
  decide

/-- Claim C1 (amended): when for a video both language-model calls fail
or return non-JSON text, that video contributes nothing, the earlier
accumulators are unchanged and the loop continues; but model output
that parses as JSON and is not a dict raises when the first named field
is read (there is no top-level type check). -/
theorem llm_failure_degrades_to_empty :
    (∀ (anthropicConfigured : Bool) (st : KBState) (inp : VideoInput),
      failSoft inp.llmFacts = true → failSoft inp.llmDesc = true →
      processVideo anthropicConfigured st inp = .ok st ∧
      ∀ rest, buildLoop anthropicConfigured st (inp :: rest) =
        buildLoop anthropicConfigured st rest) ∧
    (∀ (st : KBState) (inp : VideoInput) (j : Json) (segs : List String),
      inp.llmFacts = .response (some j) → isDict j = false →
      inp.transcriptFetch = some segs →
      processVideo true st inp = .error .attributeError) := by
  constructor
  · intro anthropicConfigured st inp hf hd
    obtain ⟨v, tr, lf, ld⟩ := inp
    have h1 : processVideo anthropicConfigured ⟨st.all_facts, st.all_businesses,
        st.all_jokes, st.all_recipes⟩ ⟨v, tr, lf, ld⟩ =
        .ok ⟨st.all_facts, st.all_businesses, st.all_jokes, st.all_recipes⟩ := by
      cases tr with
      | none => rfl
      | some segs =>
        cases lf with
        | failure =>
          cases ld with
          | failure => cases anthropicConfigured <;> rfl
          | response p =>
            cases p with
            | none => cases anthropicConfigured <;> rfl
            | some j => simp [failSoft] at hd
        | response pf =>
          cases pf with
          | none =>
            cases ld with
            | failure => cases anthropicConfigured <;> rfl
            | response p =>
              cases p with
              | none => cases anthropicConfigured <;> rfl
              | some j => simp [failSoft] at hd
          | some j => simp [failSoft] at hf
    refine ⟨h1, fun rest => ?_⟩
    simp only [buildLoop, h1]
    rfl
  · intro st inp j segs hlf hj htr
    obtain ⟨v, tr, lf, ld⟩ := inp
    simp only at hlf htr
    subst hlf htr
    cases j with
    | obj fs => simp [isDict] at hj
    | null => rfl
    | bool b => rfl
    | num n => rfl
    | str s => rfl
    | arr xs => rfl

/-- Witness for claim C1's theorem at concrete inputs for both parts. -/
theorem llm_failure_degrades_to_empty_witness :
    (processVideo true ⟨[], [], [], []⟩
        ⟨⟨"v1", "T", "D", "2024", "p"⟩, some ["hi"], .failure,
          .response none⟩ = .ok ⟨[], [], [], []⟩ ∧
      ∀ rest, buildLoop true ⟨[], [], [], []⟩
          (⟨⟨"v1", "T", "D", "2024", "p"⟩, some ["hi"], .failure,
            .response none⟩ :: rest) =
        buildLoop true ⟨[], [], [], []⟩ rest) ∧
    processVideo true ⟨[], [], [], []⟩
        ⟨⟨"v1", "T", "D", "2024", "p"⟩, some ["hi"],
          .response (some (Json.num 7)), .failure⟩ = .error .attributeError :=
  ⟨llm_failure_degrades_to_empty.1 true ⟨[], [], [], []⟩
      ⟨⟨"v1", "T", "D", "2024", "p"⟩, some ["hi"], .failure, .response none⟩
      (by decide) (by decide),
   llm_failure_degrades_to_empty.2 ⟨[], [], [], []⟩
      ⟨⟨"v1", "T", "D", "2024", "p"⟩, some ["hi"],
        .response (some (Json.num 7)), .failure⟩ (Json.num 7) ["hi"]
      rfl (by decide) rfl⟩

/-- Counterexample to claim C2: a recipe item that is not a mapping
(the string `"camp stew"`) is silently dropped — the run ends with no
recipe record — rather than coerced to a string record. -/
theorem nonmapping_recipe_dropped :
    processVideo true ⟨[], [], [], []⟩
      ⟨⟨"v1", "T", "D", "2024", "p"⟩, some ["hello"],
        .response (some (Json.obj [("recipes", Json.arr [Json.str "camp stew"])])),
        .failure⟩ = .ok ⟨[], [], [], []⟩ := by
  decide

/-- Claim C2 (amended): a gear item that is not a mapping is coerced to
its flattened string representation (`str(gear)`) and still yields a
fact record; a recipe item that is not a mapping is silently dropped
(the `isinstance` guard has no `else` branch). -/
theorem gear_coerced_recipe_dropped (v : Video) (facts : List Fact)
    (recipes : List Recipe) (g r : Json) (gs rs : List Json)
    (hg : isDict g = false) (hr : isDict r = false) :
    processGear v facts (g :: gs) =
      processGear v (facts ++
        [⟨generate_id (pyStr g), "gear", .str (pyStr g), "gear",
          v.video_id, v.title, ["gear", "equipment"]⟩]) gs ∧
    processRecipes v recipes (r :: rs) = processRecipes v recipes rs := by
  constructor
  · cases g with
    | obj fs => simp [isDict] at hg
    | null => rfl
    | bool b => rfl
    | num n => rfl
    | str s => rfl
    | arr xs => rfl
  · cases r with
    | obj fs => simp [isDict] at hr
    | null => rfl
    | bool b => rfl
    | num n => rfl
    | str s => rfl
    | arr xs => rfl

/-- Witness for claim C2's amended theorem at a concrete non-mapping
gear item and recipe item. -/
theorem gear_coerced_recipe_dropped_witness :
    processGear ⟨"v1", "T", "D", "2024", "p"⟩ [] [Json.num 5] =
      processGear ⟨"v1", "T", "D", "2024", "p"⟩
        [⟨generate_id (pyStr (Json.num 5)), "gear", .str (pyStr (Json.num 5)),
          "gear", "v1", "T", ["gear", "equipment"]⟩] [] ∧
    processRecipes ⟨"v1", "T", "D", "2024", "p"⟩ [] [Json.str "camp stew"] =
      processRecipes ⟨"v1", "T", "D", "2024", "p"⟩ [] [] :=
  gear_coerced_recipe_dropped ⟨"v1", "T", "D", "2024", "p"⟩ [] []
    (Json.num 5) (Json.str "camp stew") [] [] (by decide) (by decide)

/-- An emitted transcript-path business record carries the id generated
from its name string. -/
lemma processBizItemT_name_id {v : Video} {biz : Json} {r : Business}
    (h : processBizItemT v biz = .ok (some r)) :
    ∃ s : String, r.name = .str s ∧ r.id = generate_id s := by
  cases biz
  case null => simp [processBizItemT, pure, Except.pure] at h
  case bool b => simp [processBizItemT, pure, Except.pure] at h
  case num n => simp [processBizItemT, pure, Except.pure] at h
  case str s => simp [processBizItemT, pure, Except.pure] at h
  case arr xs => simp [processBizItemT, pure, Except.pure] at h
  case obj fs =>
    simp only [processBizItemT] at h
    by_cases ht : truthy (dictGet fs "name" .null) = true
    · rw [if_pos ht] at h
      rcases hn : dictGet fs "name" (.str "") with _ | b | n | s | xs | gs <;>
        rw [hn] at h
      · exact Except.noConfusion h
      · exact Except.noConfusion h
      · exact Except.noConfusion h
      · have h2 : (Except.ok (some (⟨generate_id s, .str s,
            dictGet fs "type" (.str "other"), dictGet fs "location" (.str ""),
            dictGet fs "contact" (.str ""), dictGet fs "website" (.str ""),
            [(v.video_id, v.title)], "Mentioned in " ++ v.title⟩ : Business)) :
            Except PyError (Option Business)) = .ok (some r) := h
        injection h2 with h3
        injection h3 with h4
        exact ⟨s, by rw [← h4], by rw [← h4]⟩
      · exact Except.noConfusion h
      · exact Except.noConfusion h
    · rw [if_neg ht] at h
      have h2 : (Except.ok (none : Option Business) :
          Except PyError (Option Business)) = .ok (some r) := h
      injection h2 with h3
      exact Option.noConfusion h3

/-- An emitted description-path business record carries the id generated
from its name string. -/
lemma processBizItemD_name_id {v : Video} {biz : Json} {r : Business}
    (h : processBizItemD v biz = .ok (some r)) :
    ∃ s : String, r.name = .str s ∧ r.id = generate_id s := by
  cases biz
  case null => simp [processBizItemD, pure, Except.pure] at h
  case bool b => simp [processBizItemD, pure, Except.pure] at h
  case num n => simp [processBizItemD, pure, Except.pure] at h
  case str s => simp [processBizItemD, pure, Except.pure] at h
  case arr xs => simp [processBizItemD, pure, Except.pure] at h
  case obj fs =>
    simp only [processBizItemD] at h
    by_cases ht : truthy (dictGet fs "name" .null) = true
    · rw [if_pos ht] at h
      rcases hn : dictGet fs "name" (.str "") with _ | b | n | s | xs | gs <;>
        rw [hn] at h
      · exact Except.noConfusion h
      · exact Except.noConfusion h
      · exact Except.noConfusion h
      · have h2 : (Except.ok (some (⟨generate_id s, .str s,
            dictGet fs "type" (.str "other"), dictGet fs "location" (.str ""),
            dictGet fs "contact" (.str ""), dictGet fs "website" (.str ""),
            [(v.video_id, v.title)], "From video description: " ++ v.title⟩ : Business)) :
            Except PyError (Option Business)) = .ok (some r) := h
        injection h2 with h3
        injection h3 with h4
        exact ⟨s, by rw [← h4], by rw [← h4]⟩
      · exact Except.noConfusion h
      · exact Except.noConfusion h
    · rw [if_neg ht] at h
      have h2 : (Except.ok (none : Option Business) :
          Except PyError (Option Business)) = .ok (some r) := h
      injection h2 with h3
      exact Option.noConfusion h3

/-- Unfolding of the business list loop at a cons cell. -/
lemma processBizListT_cons (v : Video) (bizs : List Business) (b : Json)
    (rest : List Json) :
    processBizListT v bizs (b :: rest) = Bind.bind (processBizItemT v b)
      (fun x => match x with
        | some r => processBizListT v (bizs ++ [r]) rest
        | none => processBizListT v bizs rest) := rfl

/-- Claim C4: the record id generator is a deterministic function of the
content string, and a transcript-path business record and a
description-path business record with equal name strings get equal ids;
the list loops append records without any cross-source merge. -/
theorem business_id_determined_by_name :
    (∀ s t : String, s = t → generate_id s = generate_id t) ∧
    (∀ (v1 v2 : Video) (b1 b2 : Json) (r1 r2 : Business),
      processBizItemT v1 b1 = .ok (some r1) →
      processBizItemD v2 b2 = .ok (some r2) →
      r1.name = r2.name → r1.id = r2.id) ∧
    (∀ (v : Video) (bizs : List Business) (b : Json) (rest : List Json)
      (r : Business),
      processBizItemT v b = .ok (some r) →
      processBizListT v bizs (b :: rest) = processBizListT v (bizs ++ [r]) rest) := by
  refine ⟨fun s t h => by rw [h], ?_, ?_⟩
  · intro v1 v2 b1 b2 r1 r2 h1 h2 hname
    obtain ⟨s1, hn1, hi1⟩ := processBizItemT_name_id h1
    obtain ⟨s2, hn2, hi2⟩ := processBizItemD_name_id h2
    rw [hn1, hn2] at hname
    have hss : s1 = s2 := Json.str.inj hname
    rw [hi1, hi2, hss]
  · intro v bizs b rest r h
    rw [processBizListT_cons, h]
    rfl

/-- Witness for claim C4's theorem: equal names across the two paths at
concrete inputs give equal ids, and the loop appends the record. -/
theorem business_id_determined_by_name_witness :
    generate_id "Acme" = generate_id "Acme" ∧
    (⟨generate_id "Acme", .str "Acme", .str "other", .str "", .str "",
        .str "", [("v1", "T1")], "Mentioned in T1"⟩ : Business).id =
      (⟨generate_id "Acme", .str "Acme", .str "charter", .str "", .str "",
        .str "", [("v2", "T2")], "From video description: T2"⟩ : Business).id ∧
    processBizListT ⟨"v1", "T1", "D1", "2024", "p"⟩ []
        [Json.obj [("name", Json.str "Acme")]] =
      processBizListT ⟨"v1", "T1", "D1", "2024", "p"⟩
        [⟨generate_id "Acme", .str "Acme", .str "other", .str "", .str "",
          .str "", [("v1", "T1")], "Mentioned in T1"⟩] [] :=
  ⟨business_id_determined_by_name.1 "Acme" "Acme" rfl,
   business_id_determined_by_name.2.1
     ⟨"v1", "T1", "D1", "2024", "p"⟩ ⟨"v2", "T2", "D2", "2024", "p"⟩
     (Json.obj [("name", Json.str "Acme")])
     (Json.obj [("name", Json.str "Acme"), ("type", Json.str "charter")])
     ⟨generate_id "Acme", .str "Acme", .str "other", .str "", .str "",
       .str "", [("v1", "T1")], "Mentioned in T1"⟩
     ⟨generate_id "Acme", .str "Acme", .str "charter", .str "", .str "",
       .str "", [("v2", "T2")], "From video description: T2"⟩
     (by decide) (by decide) rfl,
   business_id_determined_by_name.2.2
     ⟨"v1", "T1", "D1", "2024", "p"⟩ [] (Json.obj [("name", Json.str "Acme")]) []
     ⟨generate_id "Acme", .str "Acme", .str "other", .str "", .str "",
       .str "", [("v1", "T1")], "Mentioned in T1"⟩ (by decide)⟩

/-- With no Anthropic credential every per-video step is a no-op. -/
lemma processVideo_no_llm (st : KBState) (inp : VideoInput) :
    processVideo false st inp = .ok st := by
  obtain ⟨v, tr, lf, ld⟩ := inp
  cases tr with
  | none => rfl
  | some segs => rfl

/-- With no Anthropic credential the whole video loop is a no-op. -/
lemma buildLoop_no_llm (st : KBState) (l : List VideoInput) :
    buildLoop false st l = .ok st := by
  induction l with
  | nil => rfl
  | cons inp rest ih =>
    simp only [buildLoop, processVideo_no_llm]
    exact ih

/-- With pairwise-distinct playlist ids, filling the categories dict
appends exactly one entry per playlist, in order. -/
lemma buildCategories_eq_map (playlists : List Playlist)
    (acc : List (String × CategoryEntry))
    (hd : ∀ p ∈ playlists, ∀ q ∈ acc, q.1 ≠ p.id)
    (h : (playlists.map Playlist.id).Nodup) :
    playlists.foldl
      (fun d p => dictInsert d p.id ⟨p.id, p.title, p.description, p.id, p.category, 0⟩)
      acc =
      acc ++ playlists.map
        (fun p => (p.id, ⟨p.id, p.title, p.description, p.id, p.category, 0⟩)) := by
  induction playlists generalizing acc with
  | nil => simp
  | cons p rest ih =>
    simp only [List.foldl_cons]
    have hnot : ¬ (acc.any (fun q => q.1 == p.id) = true) := by
      simp only [List.any_eq_true, beq_iff_eq, not_exists]
      intro q hq
      exact hd p (List.mem_cons_self p rest) q hq.1 hq.2
    rw [dictInsert, if_neg hnot]
    have hmap : (List.map Playlist.id (p :: rest)).Nodup := h
    simp only [List.map_cons, List.nodup_cons] at hmap
    have hsub : ∀ p' ∈ rest, ∀ q ∈ acc ++
        [(p.id, (⟨p.id, p.title, p.description, p.id, p.category, 0⟩ : CategoryEntry))],
        q.1 ≠ p'.id := by
      intro p' hp' q hq
      rcases List.mem_append.1 hq with hq | hq
      · exact hd p' (List.mem_cons_of_mem _ hp') q hq
      · simp only [List.mem_singleton] at hq
        subst hq
        intro hq1
        simp only at hq1
        apply hmap.1
        rw [hq1]
        exact List.mem_map_of_mem Playlist.id hp'
    rw [ih _ hsub hmap.2]
    simp

/-- Claim C6: with no language-model credential the run succeeds with
all four extraction collections empty, while the playlist and video
inputs are still consumed: the categories output has exactly one entry
per (distinct-id) playlist and the metadata still counts the selected
videos. -/
theorem no_credential_empty_collections (raw : List RawPlaylist)
    (vids : List VideoInput) (maxv : Nat)
    (h : (raw.map RawPlaylist.id).Nodup) :
    build_knowledge_base false raw vids maxv =
      .ok ⟨⟨(vids.take maxv).length, 0, "1.0.0", "Outdoor Boys"⟩,
        raw.map (fun p => ⟨p.id, p.title, p.description, p.id,
          inferCategory p.title "", 0⟩), [], [], [], []⟩ := by
  have hids : ((get_channel_playlists raw).map Playlist.id).Nodup := by
    simpa [get_channel_playlists, List.map_map, Function.comp] using h
  have hcat := buildCategories_eq_map (get_channel_playlists raw) []
    (by simp) hids
  have hcats : (buildCategories (get_channel_playlists raw)).map Prod.snd =
      raw.map (fun p => (⟨p.id, p.title, p.description, p.id,
        inferCategory p.title "", 0⟩ : CategoryEntry)) := by
    rw [buildCategories, hcat]
    simp [get_channel_playlists, List.map_map, Function.comp]
  unfold build_knowledge_base
  simp only [buildLoop_no_llm]
  show Except.ok _ = _
  rw [Except.ok.injEq]
  rw [hcats]
  rfl

/-- Witness for claim C6 at a concrete two-playlist, one-video input. -/
theorem no_credential_empty_collections_witness :
    build_knowledge_base false
        [⟨"p1", "Winter Tips", "d1", 3⟩, ⟨"p2", "Zulu", "d2", 2⟩]
        [⟨⟨"v1", "T", "D", "2024", "p"⟩, some ["hi"],
          .response (some (Json.obj [("survival_tips", Json.arr [Json.str "x"])])),
          .failure⟩] 5 =
      .ok ⟨⟨1, 0, "1.0.0", "Outdoor Boys"⟩,
        [⟨"p1", "Winter Tips", "d1", "p1", inferCategory "Winter Tips" "", 0⟩,
         ⟨"p2", "Zulu", "d2", "p2", inferCategory "Zulu" "", 0⟩],
        [], [], [], []⟩ :=
  no_credential_empty_collections
    [⟨"p1", "Winter Tips", "d1", 3⟩, ⟨"p2", "Zulu", "d2", 2⟩]
    [⟨⟨"v1", "T", "D", "2024", "p"⟩, some ["hi"],
      .response (some (Json.obj [("survival_tips", Json.arr [Json.str "x"])])),
      .failure⟩] 5 (by decide)

/-- Counterexample to claim C7: for a video whose description carries a
keyword its title lacks, the emitted survival-tip fact's category
(`fishing`) differs from the category inferred for the title alone
(`general`): the code infers from title AND description (main.py, 249). -/
theorem fact_category_uses_description :
    (processVideo true ⟨[], [], [], []⟩
      ⟨⟨"v1", "Zzz", "fishing trip", "2024", "p"⟩, some ["hello"],
        .response (some (Json.obj [("survival_tips", Json.arr [Json.str "stay dry"])])),
        .failure⟩).map (fun st => st.all_facts.map Fact.category) = .ok ["fishing"] ∧
    inferCategory "Zzz" "" = "general" := by
  constructor
  · decide
  · decide

/-- Unfolding of the survival-tip loop at a cons cell. -/
lemma processTips_cons (v : Video) (cat : String) (facts : List Fact)
    (tip : Json) (rest : List Json) :
    processTips v cat facts (tip :: rest) = Bind.bind (pyGenerateId tip)
      (fun id => processTips v cat (facts ++
        [⟨id, "survival_tip", tip, cat, v.video_id, v.title,
          ["survival", cat]⟩]) rest) := rfl

/-- The survival-tip loop appends exactly one record per tip, each with
type `survival_tip`, the given category and tags `[survival, category]`. -/
lemma processTips_spec (v : Video) (cat : String) (tips : List Json)
    (facts result : List Fact)
    (h : processTips v cat facts tips = .ok result) :
    ∃ news, result = facts ++ news ∧ news.length = tips.length ∧
      ∀ f ∈ news, f.type = "survival_tip" ∧ f.category = cat ∧
        f.tags = ["survival", cat] := by
  induction tips generalizing facts with
  | nil =>
    have h3 : facts = result := Except.ok.inj h
    exact ⟨[], by rw [← h3, List.append_nil], rfl, by simp⟩
  | cons tip rest ih =>
    rw [processTips_cons] at h
    cases htip : pyGenerateId tip with
    | error e =>
      rw [htip] at h
      exact Except.noConfusion h
    | ok id =>
      rw [htip] at h
      have h' : processTips v cat (facts ++
          [⟨id, "survival_tip", tip, cat, v.video_id, v.title,
            ["survival", cat]⟩]) rest = .ok result := h
      obtain ⟨news, hr, hl, hall⟩ := ih _ h'
      refine ⟨⟨id, "survival_tip", tip, cat, v.video_id, v.title,
        ["survival", cat]⟩ :: news, ?_, by simp [hl], ?_⟩
      · rw [hr, List.append_assoc, List.singleton_append]
      · intro f hf
        rcases List.mem_cons.1 hf with rfl | hf
        · exact ⟨rfl, rfl, rfl⟩
        · exact hall f hf

/-- Claim C7 (amended): every survival tip extracted for a processed
video yields exactly one fact record of type `survival_tip` whose
category is the category inferred from the video's title AND
description (the category `processVideo` passes to this loop), with
tags `survival` followed by that category. -/
theorem survival_tip_record_shape (v : Video) (tips : List Json)
    (facts result : List Fact)
    (h : processTips v (inferCategory v.title v.description) facts tips = .ok result) :
    ∃ news, result = facts ++ news ∧ news.length = tips.length ∧
      ∀ f ∈ news, f.type = "survival_tip" ∧
        f.category = inferCategory v.title v.description ∧
        f.tags = ["survival", inferCategory v.title v.description] :=
  processTips_spec v (inferCategory v.title v.description) tips facts result h

/-- Witness for claim C7's amended theorem at a concrete tip. -/
theorem survival_tip_record_shape_witness :
    ∃ news, [(⟨generate_id "stay dry", "survival_tip", .str "stay dry",
        inferCategory "Zzz" "fishing trip", "v1", "Zzz",
        ["survival", inferCategory "Zzz" "fishing trip"]⟩ : Fact)] =
      [] ++ news ∧ news.length = [Json.str "stay dry"].length ∧
      ∀ f ∈ news, f.type = "survival_tip" ∧
        f.category = inferCategory "Zzz" "fishing trip" ∧
        f.tags = ["survival", inferCategory "Zzz" "fishing trip"] :=
  survival_tip_record_shape ⟨"v1", "Zzz", "fishing trip", "2024", "p"⟩
    [Json.str "stay dry"] []
    [⟨generate_id "stay dry", "survival_tip", .str "stay dry",
      inferCategory "Zzz" "fishing trip", "v1", "Zzz",
      ["survival", inferCategory "Zzz" "fishing trip"]⟩] rfl

/-- Claim C8: the metadata reports `totalVideos` as the number of
selected videos — the upload list truncated to `max_videos`, skipped
videos included — and `totalFacts` as the length of the accumulated
facts collection. -/
theorem metadata_counts (anthropicConfigured : Bool) (raw : List RawPlaylist)
    (vids : List VideoInput) (maxv : Nat) (out : KBOutput)
    (h : build_knowledge_base anthropicConfigured raw vids maxv = .ok out) :
    out.metadata.totalVideos = min maxv vids.length ∧
    out.metadata.totalVideos = (vids.take maxv).length ∧
    out.metadata.totalFacts = out.facts.length := by
  unfold build_knowledge_base at h
  cases hb : buildLoop anthropicConfigured ⟨[], [], [], []⟩ (vids.take maxv) with
  | error e =>
    simp only [hb] at h
    exact Except.noConfusion h
  | ok st =>
    simp only [hb] at h
    have h2 := Except.ok.inj h
    rw [← h2]
    exact ⟨by simp [List.length_take], rfl, rfl⟩

/-- Witness for claim C8 at a concrete empty run. -/
theorem metadata_counts_witness :
    (⟨⟨0, 0, "1.0.0", "Outdoor Boys"⟩, [], [], [], [], []⟩ :
        KBOutput).metadata.totalVideos = min 4 ([] : List VideoInput).length ∧
    (⟨⟨0, 0, "1.0.0", "Outdoor Boys"⟩, [], [], [], [], []⟩ :
        KBOutput).metadata.totalVideos = (([] : List VideoInput).take 4).length ∧
    (⟨⟨0, 0, "1.0.0", "Outdoor Boys"⟩, [], [], [], [], []⟩ :
        KBOutput).metadata.totalFacts =
      (⟨⟨0, 0, "1.0.0", "Outdoor Boys"⟩, [], [], [], [], []⟩ : KBOutput).facts.length :=
  metadata_counts false [] [] 4 ⟨⟨0, 0, "1.0.0", "Outdoor Boys"⟩, [], [], [], [], []⟩ rfl

/-- Python dict assignment preserves the all-factCount-zero invariant when the
inserted entry satisfies it. -/
lemma dictInsert_factCount {d : List (String × CategoryEntry)} {k : String}
    {v : CategoryEntry} (hv : v.factCount = 0)
    (hd : ∀ kv ∈ d, kv.2.factCount = 0) :
    ∀ kv ∈ dictInsert d k v, kv.2.factCount = 0 := by
  intro kv hkv
  unfold dictInsert at hkv
  by_cases hc : (d.any (fun p => p.1 == k)) = true
  · rw [if_pos hc] at hkv
    obtain ⟨p, hp, hpe⟩ := List.mem_map.1 hkv
    by_cases hpk : (p.1 == k) = true
    · rw [if_pos hpk] at hpe
      rw [← hpe]
      exact hv
    · rw [if_neg hpk] at hpe
      rw [← hpe]
      exact hd p hp
  · rw [if_neg hc] at hkv
    rcases List.mem_append.1 hkv with hkv | hkv
    · exact hd kv hkv
    · simp only [List.mem_singleton] at hkv
      rw [hkv]
      exact hv

/-- Every entry of the categories dict has `factCount = 0`. -/
lemma foldlCategories_factCount (ps : List Playlist)
    (acc : List (String × CategoryEntry))
    (hacc : ∀ kv ∈ acc, kv.2.factCount = 0) :
    ∀ kv ∈ ps.foldl
      (fun d p => dictInsert d p.id ⟨p.id, p.title, p.description, p.id, p.category, 0⟩)
      acc, kv.2.factCount = 0 := by
  induction ps generalizing acc with
  | nil => simpa using hacc
  | cons p rest ih =>
    simp only [List.foldl_cons]
    exact ih _ (dictInsert_factCount rfl hacc)

/-- Claim C9: every category object is created with `factCount = 0` and
no later operation modifies it, so every serialized category entry of
any successful run has `factCount = 0`. -/
theorem categories_factCount_zero (anthropicConfigured : Bool)
    (raw : List RawPlaylist) (vids : List VideoInput) (maxv : Nat)
    (out : KBOutput)
    (h : build_knowledge_base anthropicConfigured raw vids maxv = .ok out) :
    ∀ c ∈ out.categories, c.factCount = 0 := by
  unfold build_knowledge_base at h
  cases hb : buildLoop anthropicConfigured ⟨[], [], [], []⟩ (vids.take maxv) with
  | error e =>
    simp only [hb] at h
    exact Except.noConfusion h
  | ok st =>
    simp only [hb] at h
    have h2 := Except.ok.inj h
    intro c hc
    rw [← h2] at hc
    obtain ⟨kv, hkv, hke⟩ := List.mem_map.1 hc
    rw [← hke]
    exact foldlCategories_factCount _ _ (by simp) kv hkv

/-- Witness for claim C9 at a concrete one-playlist run and its single
category entry. -/
theorem categories_factCount_zero_witness :
    (⟨"p1", "Winter Tips", "d1", "p1", inferCategory "Winter Tips" "", 0⟩ :
      CategoryEntry).factCount = 0 :=
  categories_factCount_zero false [⟨"p1", "Winter Tips", "d1", 3⟩] [] 4
    ⟨⟨0, 0, "1.0.0", "Outdoor Boys"⟩,
      [⟨"p1", "Winter Tips", "d1", "p1", inferCategory "Winter Tips" "", 0⟩],
      [], [], [], []⟩ (by decide)
    ⟨"p1", "Winter Tips", "d1", "p1", inferCategory "Winter Tips" "", 0⟩
    (List.mem_singleton.mpr rfl)

/-- A step returning `ok none` emits no record. -/
lemma not_ok_some {α ε : Type} {e : Except ε (Option α)} (he : e = .ok none) :
    ¬ ∃ r, e = .ok (some r) := by
  rintro ⟨r, hr⟩
  rw [he] at hr
  exact Option.noConfusion (Except.ok.inj hr)

/-- Claim C10: assuming the `name` field, when present, is a string (as
the prompt requests), a business record is emitted for an item — by
either extraction path — exactly when the item is a dict whose `name`
is present and non-empty; all other items are silently dropped (the
step returns no record and no error). -/
theorem business_name_guard (v : Video) (biz : Json)
    (h : nameFieldIsStr biz = true) :
    ((∃ r, processBizItemT v biz = .ok (some r)) ↔ hasNonEmptyName biz = true) ∧
    ((∃ r, processBizItemD v biz = .ok (some r)) ↔ hasNonEmptyName biz = true) ∧
    (hasNonEmptyName biz = false →
      processBizItemT v biz = .ok none ∧ processBizItemD v biz = .ok none) := by
  cases biz
  case null =>
    exact ⟨iff_of_false (not_ok_some rfl) (by simp [hasNonEmptyName]),
           iff_of_false (not_ok_some rfl) (by simp [hasNonEmptyName]),
           fun _ => ⟨rfl, rfl⟩⟩
  case bool b =>
    exact ⟨iff_of_false (not_ok_some rfl) (by simp [hasNonEmptyName]),
           iff_of_false (not_ok_some rfl) (by simp [hasNonEmptyName]),
           fun _ => ⟨rfl, rfl⟩⟩
  case num n =>
    exact ⟨iff_of_false (not_ok_some rfl) (by simp [hasNonEmptyName]),
           iff_of_false (not_ok_some rfl) (by simp [hasNonEmptyName]),
           fun _ => ⟨rfl, rfl⟩⟩
  case str s =>
    exact ⟨iff_of_false (not_ok_some rfl) (by simp [hasNonEmptyName]),
           iff_of_false (not_ok_some rfl) (by simp [hasNonEmptyName]),
           fun _ => ⟨rfl, rfl⟩⟩
  case arr xs =>
    exact ⟨iff_of_false (not_ok_some rfl) (by simp [hasNonEmptyName]),
           iff_of_false (not_ok_some rfl) (by simp [hasNonEmptyName]),
           fun _ => ⟨rfl, rfl⟩⟩
  case obj fs =>
    cases hl : fs.lookup "name" with
    | none =>
      have hdg : dictGet fs "name" Json.null = Json.null := by
        unfold dictGet
        rw [hl]
      have hT : processBizItemT v (Json.obj fs) = .ok none := by
        simp only [processBizItemT]
        rw [hdg]
        rfl
      have hD : processBizItemD v (Json.obj fs) = .ok none := by
        simp only [processBizItemD]
        rw [hdg]
        rfl
      have hne : hasNonEmptyName (Json.obj fs) = false := by
        simp [hasNonEmptyName, hl]
      exact ⟨iff_of_false (not_ok_some hT) (by simp [hne]),
             iff_of_false (not_ok_some hD) (by simp [hne]),
             fun _ => ⟨hT, hD⟩⟩
    | some val =>
      cases val
      case null => simp [nameFieldIsStr, hl] at h
      case bool b => simp [nameFieldIsStr, hl] at h
      case num n => simp [nameFieldIsStr, hl] at h
      case arr xs => simp [nameFieldIsStr, hl] at h
      case obj gs => simp [nameFieldIsStr, hl] at h
      case str s =>
        have hdg : dictGet fs "name" Json.null = Json.str s := by
          unfold dictGet
          rw [hl]
        have hdg2 : dictGet fs "name" (Json.str "") = Json.str s := by
          unfold dictGet
          rw [hl]
        by_cases hs : s.isEmpty = true
        · have hT : processBizItemT v (Json.obj fs) = .ok none := by
            simp only [processBizItemT]
            rw [hdg]
            simp [truthy, hs]
            rfl
          have hD : processBizItemD v (Json.obj fs) = .ok none := by
            simp only [processBizItemD]
            rw [hdg]
            simp [truthy, hs]
            rfl
          have hne : hasNonEmptyName (Json.obj fs) = false := by
            simp [hasNonEmptyName, hl, hs]
          exact ⟨iff_of_false (not_ok_some hT) (by simp [hne]),
                 iff_of_false (not_ok_some hD) (by simp [hne]),
                 fun _ => ⟨hT, hD⟩⟩
        · have hs' : s.isEmpty = false := by
            simpa using hs
          have htr : truthy (dictGet fs "name" Json.null) = true := by
            rw [hdg]
            simp [truthy, hs']
          have hT : processBizItemT v (Json.obj fs) =
              .ok (some ⟨generate_id s, .str s, dictGet fs "type" (.str "other"),
                dictGet fs "location" (.str ""), dictGet fs "contact" (.str ""),
                dictGet fs "website" (.str ""), [(v.video_id, v.title)],
                "Mentioned in " ++ v.title⟩) := by
            simp only [processBizItemT]
            rw [if_pos htr, hdg2]
            rfl
          have hD : processBizItemD v (Json.obj fs) =
              .ok (some ⟨generate_id s, .str s, dictGet fs "type" (.str "other"),
                dictGet fs "location" (.str ""), dictGet fs "contact" (.str ""),
                dictGet fs "website" (.str ""), [(v.video_id, v.title)],
                "From video description: " ++ v.title⟩) := by
            simp only [processBizItemD]
            rw [if_pos htr, hdg2]
            rfl
          have hne : hasNonEmptyName (Json.obj fs) = true := by
            simp [hasNonEmptyName, hl, hs']
          refine ⟨iff_of_true ⟨_, hT⟩ hne, iff_of_true ⟨_, hD⟩ hne,
            fun hf => absurd hne (by simp [hf])⟩

/-- Witness for claim C10 at a concrete item with a non-empty name. -/
theorem business_name_guard_witness :
    ((∃ r, processBizItemT ⟨"v1", "T1", "D1", "2024", "p"⟩
        (Json.obj [("name", Json.str "Acme")]) = .ok (some r)) ↔
      hasNonEmptyName (Json.obj [("name", Json.str "Acme")]) = true) ∧
    ((∃ r, processBizItemD ⟨"v1", "T1", "D1", "2024", "p"⟩
        (Json.obj [("name", Json.str "Acme")]) = .ok (some r)) ↔
      hasNonEmptyName (Json.obj [("name", Json.str "Acme")]) = true) ∧
    (hasNonEmptyName (Json.obj [("name", Json.str "Acme")]) = false →
      processBizItemT ⟨"v1", "T1", "D1", "2024", "p"⟩
          (Json.obj [("name", Json.str "Acme")]) = .ok none ∧
        processBizItemD ⟨"v1", "T1", "D1", "2024", "p"⟩
          (Json.obj [("name", Json.str "Acme")]) = .ok none) :=
  business_name_guard ⟨"v1", "T1", "D1", "2024", "p"⟩
    (Json.obj [("name", Json.str "Acme")]) (by decide)

end OutdoorBoys
